import Mathlib

/-!
Shallow embedding of the meesign-server coordination core.

The repository holds two generations of the orchestrator:
* `src/main.rs` (with `src/rpc.rs`): a self-contained early `State` with
  index-addressed tasks (`SignTask`, `GroupTask`);
* `src/state.rs`: a richer `State` with `Uuid`-addressed boxed `dyn Task`
  objects, plus `src/protocols/musig2.rs` with the `Musig2Group` /
  `Musig2Sign` protocol round machines.

Modelling conventions:
* byte strings (`Vec<u8>` / `&[u8]`) are `List Nat`;
* `HashMap` is an insertion-ordered association list whose `insert`
  replaces the value in place, as the Rust `HashMap` does (its iteration
  order is arbitrary but stable; the association list fixes one order);
* a Rust panic (`unwrap` failure, failed `assert!`) is `Option.none` in
  the corresponding Lean function;
* `len() as u32` casts are kept as `% 2 ^ 32`.
-/

namespace Meesign

/-- Opaque byte string (`Vec<u8>` / `&[u8]`). -/
abbrev Bytes := List Nat

/-- Task identifier of the `state.rs` orchestrator (`uuid::Uuid`); the random
v4 generation is external, so fresh identifiers are passed in as arguments. -/
abbrev Uuid := Nat

/-- Lookup in an insertion-ordered association list (models `HashMap::get`). -/
def alLookup {κ α : Type} [DecidableEq κ] (k : κ) : List (κ × α) → Option α
  | [] => none
  | (k₁, v) :: rest => if k₁ = k then some v else alLookup k rest

/-- Insert into an insertion-ordered association list (models `HashMap::insert`):
an existing key keeps its position and gets the new value, a fresh key is
appended. -/
def alInsert {κ α : Type} [DecidableEq κ] (k : κ) (v : α) : List (κ × α) → List (κ × α)
  | [] => [(k, v)]
  | (k₁, v₁) :: rest => if k₁ = k then (k, v) :: rest else (k₁, v₁) :: alInsert k v rest

/-- Key membership in an association list (models `HashMap::contains_key`). -/
def alContains {κ α : Type} [DecidableEq κ] (k : κ) (l : List (κ × α)) : Bool :=
  (alLookup k l).isSome

/-- Group record (`crate::group::Group`). Modelled from the spec: `group.rs`
is not under src/. Spec §3: a group is its byte identifier (by convention the
concatenation of the member identifiers), the ordered member device
identifiers, and the threshold; the group stores key groups by identifier. -/
structure Group where
  identifier : Bytes
  devices : List Bytes
  threshold : Nat
deriving DecidableEq

namespace MainRs

/-- Task status (`task::TaskStatus` of main.rs). Modelled from the spec and
its uses in main.rs / rpc.rs: `task.rs` is not under src/. `Waiting` carries
the pending device list, `Signed` the signature bytes, `GroupEstablished` the
established group, `Failed` a reason. -/
inductive TaskStatus
  | Waiting (pending : List Bytes)
  | Signed (signature : Bytes)
  | GroupEstablished (group : Group)
  | Failed (reason : Bytes)
deriving DecidableEq

/-- Embeds `SignTask` of main.rs: per-device contribution flags, the data to sign,
and the (initially empty) result bytes. -/
structure SignTask where
  subtasks : List (Bytes × Bool)
  data : Bytes
  result : Bytes
deriving DecidableEq

/-- Embeds `SignTask::new`: every device starts with contribution flag `false`. -/
def SignTask.new (devices : List Bytes) (data : Bytes) : SignTask :=
  { subtasks := devices.foldl (fun m d => alInsert d false m) []
    data := data
    result := [] }

/-- Embeds `SignTask::get_status` of main.rs, verbatim: it computes the outstanding
device list `waiting` and then branches on `waiting.is_empty()`, returning
`Waiting(waiting)` when it is empty and `Signed(result)` otherwise. -/
def SignTask.getStatus (t : SignTask) : TaskStatus :=
  let waiting := (t.subtasks.filter (fun p => !p.2)).map Prod.fst
  if waiting.isEmpty then TaskStatus.Waiting waiting else TaskStatus.Signed t.result

/-- Embeds `SignTask::update` of main.rs: a participant's contribution flag is set
(the payload `_data` is unused in the source); an unknown device is rejected
with an error and no state change. -/
def SignTask.update (t : SignTask) (deviceId : Bytes) (_data : Bytes) :
    Except String TaskStatus × SignTask :=
  if alContains deviceId t.subtasks then
    let t₁ := { t with subtasks := alInsert deviceId true t.subtasks }
    (Except.ok t₁.getStatus, t₁)
  else
    (Except.error "Incompatible device ID", t)

/-- Embeds `SignTask::get_work` of main.rs: `None` unless the device's contribution
flag is set (an absent device defaults to `false` via `unwrap_or`). -/
def SignTask.getWork (t : SignTask) (deviceId : Bytes) : Option Bytes :=
  if !((alLookup deviceId t.subtasks).getD false) then none else some t.data

/-- Embeds `GroupTask` of main.rs: per-device contribution flags, the configured
threshold, and the group result once established. -/
structure GroupTask where
  subtasks : List (Bytes × Bool)
  threshold : Nat
  result : Option Group
deriving DecidableEq

/-- Embeds `GroupTask::new`: asserts `threshold <= devices.len() as u32` (`none`
models the assertion panic); every device starts with flag `false`. -/
def GroupTask.new (devices : List Bytes) (threshold : Nat) : Option GroupTask :=
  if threshold ≤ devices.length % 2 ^ 32 then
    some { subtasks := devices.foldl (fun m d => alInsert d false m) []
           threshold := threshold
           result := none }
  else none

/-- Embeds `GroupTask::try_advance` of main.rs: when no result exists yet and every
contribution flag is set, builds the `Group` whose identifier concatenates the
subtask keys, whose member list is the subtask keys, and whose threshold is
the configured one, and stores it as the result; otherwise does nothing. -/
def GroupTask.tryAdvance (t : GroupTask) : Bool × GroupTask :=
  if t.result.isNone && t.subtasks.all (fun p => p.2) then
    let identifier := (t.subtasks.map Prod.fst).flatten
    (true, { t with result := some (Group.mk identifier (t.subtasks.map Prod.fst) t.threshold) })
  else
    (false, t)

/-- Embeds `GroupTask::get_status` of main.rs, verbatim: computes the outstanding
device list `waiting`, returns `Waiting(waiting)` when it is empty and
`GroupEstablished(result.unwrap())` otherwise; `none` models the `unwrap`
panic when no result exists. -/
def GroupTask.getStatus (t : GroupTask) : Option TaskStatus :=
  let waiting := (t.subtasks.filter (fun p => !p.2)).map Prod.fst
  if waiting.isEmpty then
    some (TaskStatus.Waiting waiting)
  else
    (t.result).map TaskStatus.GroupEstablished

/-- Embeds `GroupTask::update` of main.rs: sets a participant's flag (the payload
`_data` is unused in the source), runs `try_advance`, and reads the status
(whose `unwrap` may panic, hence the outer `Option`); an unknown device is
rejected with an error and no state change. -/
def GroupTask.update (t : GroupTask) (deviceId : Bytes) (_data : Bytes) :
    Option (Except String TaskStatus × GroupTask) :=
  if alContains deviceId t.subtasks then
    let t₁ := { t with subtasks := alInsert deviceId true t.subtasks }
    let t₂ := t₁.tryAdvance.2
    match t₂.getStatus with
    | some st => some (Except.ok st, t₂)
    | none => none
  else
    some (Except.error "Incompatible device ID", t)

/-- Embeds `GroupTask::get_work` of main.rs: `None` unless the device's flag is set;
otherwise the fixed payload `[1,2,3,4]`. -/
def GroupTask.getWork (t : GroupTask) (deviceId : Bytes) : Option Bytes :=
  if !((alLookup deviceId t.subtasks).getD false) then none else some [1, 2, 3, 4]

/-- The two `dyn Task` variants stored in the main.rs `State`. -/
inductive Task
  | sign (t : SignTask)
  | group (t : GroupTask)
deriving DecidableEq

/-- Dynamic dispatch of `Task::get_status`; `none` models a panic. -/
def Task.getStatus : Task → Option TaskStatus
  | .sign t => some t.getStatus
  | .group t => t.getStatus

/-- Dynamic dispatch of `Task::update`; `none` models a panic. -/
def Task.update (t : Task) (deviceId data : Bytes) : Option (Except String TaskStatus × Task) :=
  match t with
  | .sign st =>
    let r := st.update deviceId data
    some (r.1, .sign r.2)
  | .group gt => (gt.update deviceId data).map (fun r => (r.1, .group r.2))

/-- Dynamic dispatch of `Task::get_work` (total in the source). -/
def Task.getWork (t : Task) (deviceId : Bytes) : Option Bytes :=
  match t with
  | .sign st => st.getWork deviceId
  | .group gt => gt.getWork deviceId

/-- Insertion into the `HashSet<Group>` of main.rs `State`. Modelled from the
spec for the missing `group.rs`: the set is keyed by the group identifier
(`State::add_sign_task` looks groups up by `&[u8]`, so `Group` borrows as its
identifier); inserting an already-present identifier leaves the set unchanged. -/
def hsInsert (g : Group) (l : List Group) : List Group :=
  if l.any (fun g₁ => g₁.identifier = g.identifier) then l else l ++ [g]

/-- Lookup in the `HashSet<Group>` by identifier (`groups.get(group)`). -/
def hsLookup (identifier : Bytes) (l : List Group) : Option Group :=
  l.find? (fun g => g.identifier = identifier)

/-- Embeds `State` of main.rs: device registry (identifier to certificate bytes),
established groups, and an index-addressed task list. -/
structure State where
  devices : List (Bytes × Bytes)
  groups : List Group
  tasks : List Task
deriving DecidableEq

/-- Embeds `State::new` of main.rs. -/
def State.new : State :=
  { devices := [], groups := [], tasks := [] }

/-- Embeds `State::add_device` of main.rs: unconditionally inserts the device with an
empty value. -/
def State.addDevice (s : State) (device : Bytes) : State :=
  { s with devices := alInsert device [] s.devices }

/-- Embeds `State::add_group_task` of main.rs: rejects a threshold above the device
count (as `u32`) and any device missing from the registry, otherwise pushes a
new `GroupTask`; the outer `Option` models the (unreachable) constructor
assertion panic. -/
def State.addGroupTask (s : State) (devices : List Bytes) (threshold : Nat) :
    Option (Bool × State) :=
  if threshold > devices.length % 2 ^ 32 then
    some (false, s)
  else if devices.all (fun d => alContains d s.devices) then
    (GroupTask.new devices threshold).map
      (fun t => (true, { s with tasks := s.tasks ++ [Task.group t] }))
  else
    some (false, s)

/-- Embeds `State::add_sign_task` of main.rs: `self.groups.get(group).unwrap()` — an
unknown group identifier panics (`none`); otherwise a `SignTask` over the
group's devices is pushed. There is no payload size check in this variant. -/
def State.addSignTask (s : State) (group : Bytes) (data : Bytes) : Option State :=
  (hsLookup group s.groups).map
    (fun g => { s with tasks := s.tasks ++ [Task.sign (SignTask.new g.devices data)] })

/-- Embeds `State::get_task` of main.rs: `tasks.get(task).unwrap().get_status()`;
`none` models a panic (missing index, or the status `unwrap`). -/
def State.getTask (s : State) (task : Nat) : Option TaskStatus :=
  match s.tasks.get? task with
  | none => none
  | some t => t.getStatus

/-- Embeds `State::get_work` of main.rs: `tasks.get(task).unwrap().get_work(device)`;
the outer `Option` models the lookup panic, the inner one is the work payload. -/
def State.getWork (s : State) (task : Nat) (device : Bytes) : Option (Option Bytes) :=
  (s.tasks.get? task).map (fun t => t.getWork device)

/-- Embeds `State::update_task` of main.rs: looks the task up (`unwrap`), forwards the
update (`unwrap` of its `Result`), and inserts the group into the store when
the returned status is `GroupEstablished`; `none` models any of the panics. -/
def State.updateTask (s : State) (task : Nat) (device data : Bytes) :
    Option (TaskStatus × State) :=
  match s.tasks.get? task with
  | none => none
  | some t =>
    match t.update device data with
    | none => none
    | some (Except.error _, _) => none
    | some (Except.ok status, t₁) =>
      let s₁ := { s with tasks := s.tasks.set task t₁ }
      match status with
      | TaskStatus.GroupEstablished g => some (status, { s₁ with groups := hsInsert g s₁.groups })
      | _ => some (status, s₁)

end MainRs

namespace StateRs

/-- Embeds `char::is_ascii_punctuation` of Rust: U+0021..=U+002F, U+003A..=U+0040,
U+005B..=U+0060, U+007B..=U+007E. -/
def isAsciiPunctuation (c : Char) : Bool :=
  (0x21 ≤ c.toNat && c.toNat ≤ 0x2f) || (0x3a ≤ c.toNat && c.toNat ≤ 0x40) ||
    (0x5b ≤ c.toNat && c.toNat ≤ 0x60) || (0x7b ≤ c.toNat && c.toNat ≤ 0x7e)

/-- Embeds `char::is_control` of Rust: the Unicode Cc category, U+0000..=U+001F and
U+007F..=U+009F. -/
def isControl (c : Char) : Bool :=
  c.toNat ≤ 0x1f || (0x7f ≤ c.toNat && c.toNat ≤ 0x9f)

/-- The name-validation condition of `State::add_device` in state.rs:
`name.chars().count() > 64 || name.chars().any(|x| x.is_ascii_punctuation() || x.is_control())`. -/
def invalidName (name : List Char) : Bool :=
  decide (name.length > 64) || name.any (fun c => isAsciiPunctuation c || isControl c)

/-- Device record (`crate::device::Device`). Modelled from the spec:
`device.rs` is not under src/. Spec §3: stable byte identifier, validated
display name, liveness flag unset at creation. -/
structure Device where
  identifier : Bytes
  name : List Char
  active : Bool
deriving DecidableEq

/-- Embeds `Device::new`: liveness starts unset. -/
def Device.new (identifier : Bytes) (name : List Char) : Device :=
  { identifier := identifier, name := name, active := false }

/-- Task status of the state.rs orchestrator (`crate::tasks::TaskStatus`).
Modelled from the spec: `src/tasks` is not under src/; spec §3 gives the
projected statuses Waiting / Finished / Failed, and state.rs only compares
against `TaskStatus::Finished`. -/
inductive TaskStatus
  | Waiting
  | Finished
  | Failed
deriving DecidableEq

/-- Task result of the state.rs orchestrator (`crate::tasks::TaskResult`).
Modelled from the spec: an established group or opaque signature bytes. -/
inductive TaskResult
  | GroupEstablished (group : Group)
  | Signed (signature : Bytes)
deriving DecidableEq

/-- Interface of the boxed `dyn Task` trait objects stored in the state.rs
`State::tasks`. The trait implementations (`src/tasks`) are not under src/,
so the `State` methods are parametric in the task type and its operations,
matching the source's dynamic dispatch. Operations are those state.rs calls:
`get_status`, `update` (returning `Result<bool, String>`), `get_result`
(`None` models a result that is absent), `decide`, `acknowledge`. -/
structure TaskOps (τ : Type) where
  getStatus : τ → TaskStatus
  update : τ → Bytes → Bytes → Except String Bool × τ
  getResult : τ → Option TaskResult
  decide : τ → Bytes → Bool → Bool × τ
  acknowledge : τ → Bytes → τ

/-- Embeds `SignPDFTask::new`'s record (`crate::tasks::sign_pdf::SignPDFTask`).
Modelled from the spec: a signing task is constructed from its group, the
request name, and the data to sign. -/
structure SignPDFTask where
  group : Group
  name : List Char
  data : Bytes
deriving DecidableEq

/-- Embeds `State` of state.rs: device registry, groups keyed by identifier, and
`Uuid`-addressed tasks of dynamic type `τ`. The push-notification subscriber
map is omitted: `send_updates` only reads tasks and mutates subscribers, so it
never affects the devices/groups/tasks modelled here (spec §5: best-effort
notification, never propagated to the triggering mutation). -/
structure State (τ : Type) where
  devices : List (Bytes × Device)
  groups : List (Bytes × Group)
  tasks : List (Uuid × τ)

/-- Embeds `State::add_device` of state.rs: rejects an invalid name or an already
registered identifier with no mutation, otherwise inserts the new record. -/
def State.addDevice {τ : Type} (s : State τ) (identifier : Bytes) (name : List Char) :
    Bool × State τ :=
  if invalidName name then
    (false, s)
  else if alContains identifier s.devices then
    (false, s)
  else
    (true, { s with devices := alInsert identifier (Device.new identifier name) s.devices })

/-- Embeds `State::add_sign_task` of state.rs: rejects data above 8 MiB, a byte-length
name above 256, or a control character in the name, then an unknown group —
all with no mutation; otherwise inserts a `SignPDFTask` under a fresh `Uuid`
(the random v4 value is passed in as `freshUuid`). -/
def State.addSignTask (s : State SignPDFTask) (freshUuid : Uuid) (group : Bytes)
    (name : List Char) (data : Bytes) : Option Uuid × State SignPDFTask :=
  if decide (data.length > 8 * 1024 * 1024) || decide ((name.map Char.utf8Size).sum > 256)
      || name.any isControl then
    (none, s)
  else
    match alLookup group s.groups with
    | none => (none, s)
    | some g =>
      (some freshUuid, { s with tasks := alInsert freshUuid (SignPDFTask.mk g name data) s.tasks })

/-- Embeds `State::update_task` of state.rs: `tasks.get_mut(task_id).unwrap()` (the
outer `none` models that panic, and the panic of `get_result().unwrap()`),
forwards the update, and on a transition into `Finished` with a
`GroupEstablished` result inserts the group into the store keyed by its
identifier. Notification fan-out (`send_updates`) is outside the model. -/
def State.updateTask {τ : Type} (ops : TaskOps τ) (s : State τ) (taskId : Uuid)
    (device data : Bytes) : Option (Except String Bool × State τ) :=
  match alLookup taskId s.tasks with
  | none => none
  | some task =>
    let previousStatus := ops.getStatus task
    let r := ops.update task device data
    let s₁ := { s with tasks := alInsert taskId r.2 s.tasks }
    if previousStatus ≠ TaskStatus.Finished ∧ ops.getStatus r.2 = TaskStatus.Finished then
      match ops.getResult r.2 with
      | none => none
      | some (TaskResult.GroupEstablished g) =>
        some (r.1, { s₁ with groups := alInsert g.identifier g s₁.groups })
      | some _ => some (r.1, s₁)
    else
      some (r.1, s₁)

/-- Embeds `State::decide_task` of state.rs: `tasks.get_mut(task_id).unwrap()` (`none`
models the panic), then records the decision. -/
def State.decideTask {τ : Type} (ops : TaskOps τ) (s : State τ) (taskId : Uuid)
    (device : Bytes) (decision : Bool) : Option (Bool × State τ) :=
  match alLookup taskId s.tasks with
  | none => none
  | some task =>
    let r := ops.decide task device decision
    some (r.1, { s with tasks := alInsert taskId r.2 s.tasks })

/-- Embeds `State::acknowledge_task` of state.rs: `tasks.get_mut(task).unwrap()`
(`none` models the panic), then forwards the acknowledgement. -/
def State.acknowledgeTask {τ : Type} (ops : TaskOps τ) (s : State τ) (taskId : Uuid)
    (device : Bytes) : Option (State τ) :=
  match alLookup taskId s.tasks with
  | none => none
  | some task => some { s with tasks := alInsert taskId (ops.acknowledge task device) s.tasks }

end StateRs

namespace RpcRs

/-- The threshold computation of `MPCService::group` in rpc.rs:
`request.threshold.unwrap_or(device_ids.len() as u32)`. -/
def groupThreshold (deviceIds : List Bytes) (threshold : Option Nat) : Nat :=
  threshold.getD (deviceIds.length % 2 ^ 32)

end RpcRs

namespace Musig2

/-- The three `Protocol` trait entry points driven by a task. Written `init`
for the source's `initialize`. -/
inductive PCall
  | init
  | advance
  | finalize
deriving DecidableEq

/-- Embeds `Musig2Group` of protocols/musig2.rs: parties, threshold, and the `u16`
round counter (kept as `Nat`: every reachable round is at most
`last_round + 1 = 3`, so the `u16` arithmetic never wraps). -/
structure Musig2Group where
  parties : Nat
  threshold : Nat
  round : Nat
deriving DecidableEq

/-- Embeds `Musig2Group::new`: round starts at 0. -/
def Musig2Group.new (parties threshold : Nat) : Musig2Group :=
  { parties := parties, threshold := threshold, round := 0 }

/-- Embeds `Musig2Group::last_round` is the constant 2. -/
def Musig2Group.lastRound (_ : Musig2Group) : Nat := 2

/-- Round effect of `Musig2Group::initialize`: sets `round = 1`, with no
precondition in the source. The communicator broadcast
(`set_active_devices` / `send_all`) is external to the round bookkeeping. -/
def Musig2Group.init (p : Musig2Group) : Musig2Group :=
  { p with round := 1 }

/-- Embeds `Musig2Group::advance`: asserts `(0..last_round).contains(&round)` (`none`
models the assertion panic) and increments the round; the communicator
`relay()` is external to the round bookkeeping. -/
def Musig2Group.advance (p : Musig2Group) : Option Musig2Group :=
  if 0 ≤ p.round ∧ p.round < p.lastRound then some { p with round := p.round + 1 } else none

/-- Embeds `Musig2Group::finalize`: asserts `round == last_round` (`none` models the
assertion panic) and increments the round; the returned
`communicator.get_final_message()` is external to the round bookkeeping. -/
def Musig2Group.finalize (p : Musig2Group) : Option Musig2Group :=
  if p.round = p.lastRound then some { p with round := p.round + 1 } else none

/-- One `Protocol` call on a `Musig2Group`; `none` models an assertion panic. -/
def Musig2Group.step (p : Musig2Group) : PCall → Option Musig2Group
  | .init => some p.init
  | .advance => p.advance
  | .finalize => p.finalize

/-- Runs a call sequence on a `Musig2Group` and returns the round observed
after each successful call; `none` when some call panics. -/
def Musig2Group.run (p : Musig2Group) : List PCall → Option (List Nat)
  | [] => some []
  | c :: cs =>
    match p.step c with
    | none => none
    | some p₁ => (p₁.run cs).map (fun rs => p₁.round :: rs)

/-- The call sequence invokes `initialize` only in states whose round is 0
(the legality window the spec gives for `initialize`); vacuously true past a
panicking call. -/
def Musig2Group.initOnlyAtZero (p : Musig2Group) : List PCall → Bool
  | [] => true
  | PCall.init :: cs => p.round == 0 && (p.init).initOnlyAtZero cs
  | PCall.advance :: cs =>
    match p.advance with
    | none => true
    | some p₁ => p₁.initOnlyAtZero cs
  | PCall.finalize :: cs =>
    match p.finalize with
    | none => true
    | some p₁ => p₁.initOnlyAtZero cs

/-- Embeds `Musig2Sign` of protocols/musig2.rs: the `u16` round counter (as `Nat`;
every reachable round is at most `last_round + 1 = 4`, below `2 ^ 16`). -/
structure Musig2Sign where
  round : Nat
deriving DecidableEq

/-- Embeds `Musig2Sign::new`: round starts at 0. -/
def Musig2Sign.new : Musig2Sign :=
  { round := 0 }

/-- Embeds `Musig2Sign::last_round` is the constant 3. -/
def Musig2Sign.lastRound (_ : Musig2Sign) : Nat := 3

/-- Round effect of `Musig2Sign::initialize`: sets `round = 1`, with no
precondition in the source; the communicator broadcast is external. -/
def Musig2Sign.init (p : Musig2Sign) : Musig2Sign :=
  { p with round := 1 }

/-- Embeds `Musig2Sign::advance`: asserts `(0..last_round).contains(&round)` (`none`
models the assertion panic) and increments the round. -/
def Musig2Sign.advance (p : Musig2Sign) : Option Musig2Sign :=
  if 0 ≤ p.round ∧ p.round < p.lastRound then some { p with round := p.round + 1 } else none

/-- Embeds `Musig2Sign::finalize`: asserts `round == last_round` (`none` models the
assertion panic) and increments the round. -/
def Musig2Sign.finalize (p : Musig2Sign) : Option Musig2Sign :=
  if p.round = p.lastRound then some { p with round := p.round + 1 } else none

/-- One `Protocol` call on a `Musig2Sign`; `none` models an assertion panic. -/
def Musig2Sign.step (p : Musig2Sign) : PCall → Option Musig2Sign
  | .init => some p.init
  | .advance => p.advance
  | .finalize => p.finalize

/-- Runs a call sequence on a `Musig2Sign`, returning the observed rounds. -/
def Musig2Sign.run (p : Musig2Sign) : List PCall → Option (List Nat)
  | [] => some []
  | c :: cs =>
    match p.step c with
    | none => none
    | some p₁ => (p₁.run cs).map (fun rs => p₁.round :: rs)

/-- The call sequence invokes `initialize` only in round-0 states. -/
def Musig2Sign.initOnlyAtZero (p : Musig2Sign) : List PCall → Bool
  | [] => true
  | PCall.init :: cs => p.round == 0 && (p.init).initOnlyAtZero cs
  | PCall.advance :: cs =>
    match p.advance with
    | none => true
    | some p₁ => p₁.initOnlyAtZero cs
  | PCall.finalize :: cs =>
    match p.finalize with
    | none => true
    | some p₁ => p₁.initOnlyAtZero cs

end Musig2

/-! Decidable equality of `Except` values, for evaluating concrete runs. -/

deriving instance DecidableEq for Except

/-! Theorems. -/

theorem alLookup_of_alContains_eq_false {κ α : Type} [DecidableEq κ] (k : κ)
    (l : List (κ × α)) (h : alContains k l = false) : alLookup k l = none := by
  unfold alContains at h
  cases hl : alLookup k l with
  | none => rfl
  | some v => rw [hl] at h; simp at h

theorem alLookup_isSome_of_alContains {κ α : Type} [DecidableEq κ] (k : κ)
    (l : List (κ × α)) (h : alContains k l = true) : (alLookup k l).isSome = true := h

theorem alInsert_of_alContains_eq_false {κ α : Type} [DecidableEq κ] (k : κ) (v : α)
    (l : List (κ × α)) (h : alContains k l = false) : alInsert k v l = l ++ [(k, v)] := by
  induction l with
  | nil => rfl
  | cons p rest ih =>
    obtain ⟨k₁, v₁⟩ := p
    by_cases hk : k₁ = k
    · subst hk
      simp [alContains, alLookup] at h
    · simp only [alContains, alLookup, hk, if_false] at h
      simp [alInsert, hk, ih h]

/-- Claim C1 (code bug): the status projection of main.rs is inverted. On a
one-device `SignTask` whose device has not contributed, the outstanding set is
`[[0]]`, yet `get_status` returns the terminal `Signed` (with the empty
result) instead of `Waiting [[0]]`; once the device has contributed it returns
`Waiting []` instead of `Signed`; and on a one-device `GroupTask` with an
outstanding contribution `get_status` panics (`result.unwrap()` on `None`),
modelled as `none`. -/
theorem get_status_inverted_on_pending :
    (MainRs.SignTask.new [[0]] [1, 2]).getStatus = MainRs.TaskStatus.Signed [] ∧
    ((MainRs.SignTask.new [[0]] [1, 2]).subtasks.filter (fun p => !p.2)).map Prod.fst = [[0]] ∧
    ((MainRs.SignTask.new [[0]] [1, 2]).update [0] []).1
      = Except.ok (MainRs.TaskStatus.Waiting []) ∧
    (MainRs.GroupTask.new [[0]] 1).map MainRs.GroupTask.getStatus = some none := by
  decide

/-- Claim C2 (code bug): on a completed one-device group-formation task the
`try_advance` of main.rs does create the `Group` exactly as specified
(identifier `[0]` is the member concatenation, members `[[0]]`, threshold 1)
and stores it in the task's result, but `State::update_task` receives status
`Waiting []` (the inverted projection of C1) instead of `GroupEstablished`, so
the group store of the resulting state is still empty: the established group
is never inserted. -/
theorem group_established_but_never_stored :
    MainRs.State.updateTask ⟨[([0], [])], [], [MainRs.Task.group ⟨[([0], false)], 1, none⟩]⟩
        0 [0] []
      = some (MainRs.TaskStatus.Waiting [],
          ⟨[([0], [])], [], [MainRs.Task.group ⟨[([0], true)], 1, some ⟨[0], [[0]], 1⟩⟩]⟩) := by
  decide

/-- Claim C5: for both task variants of main.rs, an `update` by a device
outside the task's participant set returns the error "Incompatible device ID"
and returns the task unchanged — contribution map, result, and hence the
projected status are untouched. -/
theorem update_unknown_device_rejected (st : MainRs.SignTask) (gt : MainRs.GroupTask)
    (d data₁ data₂ : Bytes)
    (h₁ : alContains d st.subtasks = false) (h₂ : alContains d gt.subtasks = false) :
    st.update d data₁ = (Except.error "Incompatible device ID", st) ∧
    gt.update d data₂ = some (Except.error "Incompatible device ID", gt) := by
  constructor
  · simp [MainRs.SignTask.update, h₁]
  · simp [MainRs.GroupTask.update, h₂]

/-- Witness for C5 at a concrete sign task and group task over device `[1]`
and the foreign device `[2]`. -/
theorem update_unknown_device_rejected_witness :
    MainRs.SignTask.update (MainRs.SignTask.new [[1]] [9]) [2] [7]
      = (Except.error "Incompatible device ID", MainRs.SignTask.new [[1]] [9]) ∧
    MainRs.GroupTask.update ⟨[([1], false)], 1, none⟩ [2] [8]
      = some (Except.error "Incompatible device ID", ⟨[([1], false)], 1, none⟩) :=
  update_unknown_device_rejected (MainRs.SignTask.new [[1]] [9]) ⟨[([1], false)], 1, none⟩
    [2] [7] [8] (by decide) (by decide)

/-- Claim C8: `SignTask::get_work` of main.rs yields the task data exactly for
a device whose contribution flag is set, and `None` for a device whose
contribution is outstanding (flag unset or device absent). -/
theorem sign_get_work_gated (t : MainRs.SignTask) (d : Bytes) :
    (alLookup d t.subtasks = some true → t.getWork d = some t.data) ∧
    ((alLookup d t.subtasks).getD false = false → t.getWork d = none) := by
  unfold MainRs.SignTask.getWork
  constructor <;> intro h <;> simp [h]

/-- Witness for C8: after device `[0]` contributes its work is the task data,
while beforehand it is `None`. -/
theorem sign_get_work_gated_witness :
    MainRs.SignTask.getWork ((MainRs.SignTask.new [[0]] [7]).update [0] []).2 [0] = some [7] ∧
    MainRs.SignTask.getWork (MainRs.SignTask.new [[0]] [7]) [0] = none :=
  ⟨(sign_get_work_gated ((MainRs.SignTask.new [[0]] [7]).update [0] []).2 [0]).1 (by decide),
    (sign_get_work_gated (MainRs.SignTask.new [[0]] [7]) [0]).2 (by decide)⟩

/-- Claim C10: the payload argument of `update` is ignored by both task
variants of main.rs (`_data` is unused): any two payloads from the same device
yield identical return values and identical successor task states. -/
theorem update_ignores_payload (st : MainRs.SignTask) (gt : MainRs.GroupTask)
    (d data₁ data₂ : Bytes) :
    st.update d data₁ = st.update d data₂ ∧ gt.update d data₁ = gt.update d data₂ :=
  ⟨rfl, rfl⟩

/-- Claim C3 counterexample: `Musig2Group::initialize` has no round
precondition, so the call sequence `initialize, initialize` from round 0
succeeds entirely, yet the observed rounds are `[1, 1]` — not strictly
increasing by exactly 1 per successful call. -/
theorem double_init_breaks_monotonicity :
    (Musig2.Musig2Group.new 3 2).run [Musig2.PCall.init, Musig2.PCall.init] = some [1, 1] ∧
    [1, 1] ≠ List.range' (0 + 1) 2 1 := by
  decide

theorem musig2Group_run_guarded (p : Musig2.Musig2Group) (cs : List Musig2.PCall)
    (rs : List Nat) (hg : p.initOnlyAtZero cs = true) (hr : p.run cs = some rs) :
    rs = List.range' (p.round + 1) cs.length 1 := by
  induction cs generalizing p rs with
  | nil =>
    simp [Musig2.Musig2Group.run] at hr
    simp [← hr, List.range']
  | cons c cs ih =>
    cases c with
    | init =>
      simp only [Musig2.Musig2Group.initOnlyAtZero, Bool.and_eq_true, beq_iff_eq] at hg
      simp only [Musig2.Musig2Group.run, Musig2.Musig2Group.step] at hr
      obtain ⟨rs₁, hrs₁, hcons⟩ := Option.map_eq_some'.mp hr
      have hround : (p.init).round = p.round + 1 := by
        simp [Musig2.Musig2Group.init, hg.1]
      rw [← hcons, ih _ _ hg.2 hrs₁, hround, List.length_cons, List.range'_succ]
    | advance =>
      simp only [Musig2.Musig2Group.initOnlyAtZero] at hg
      simp only [Musig2.Musig2Group.run, Musig2.Musig2Group.step] at hr
      cases hadv : p.advance with
      | none => rw [hadv] at hr; simp at hr
      | some p₁ =>
        rw [hadv] at hr hg
        obtain ⟨rs₁, hrs₁, hcons⟩ := Option.map_eq_some'.mp hr
        have hround : p₁.round = p.round + 1 := by
          unfold Musig2.Musig2Group.advance at hadv
          split at hadv
          · cases hadv; rfl
          · cases hadv
        rw [← hcons, ih _ _ hg hrs₁, hround, List.length_cons, List.range'_succ]
    | finalize =>
      simp only [Musig2.Musig2Group.initOnlyAtZero] at hg
      simp only [Musig2.Musig2Group.run, Musig2.Musig2Group.step] at hr
      cases hfin : p.finalize with
      | none => rw [hfin] at hr; simp at hr
      | some p₁ =>
        rw [hfin] at hr hg
        obtain ⟨rs₁, hrs₁, hcons⟩ := Option.map_eq_some'.mp hr
        have hround : p₁.round = p.round + 1 := by
          unfold Musig2.Musig2Group.finalize at hfin
          split at hfin
          · cases hfin; rfl
          · cases hfin
        rw [← hcons, ih _ _ hg hrs₁, hround, List.length_cons, List.range'_succ]

theorem musig2Sign_run_guarded (p : Musig2.Musig2Sign) (cs : List Musig2.PCall)
    (rs : List Nat) (hg : p.initOnlyAtZero cs = true) (hr : p.run cs = some rs) :
    rs = List.range' (p.round + 1) cs.length 1 := by
  induction cs generalizing p rs with
  | nil =>
    simp [Musig2.Musig2Sign.run] at hr
    simp [← hr, List.range']
  | cons c cs ih =>
    cases c with
    | init =>
      simp only [Musig2.Musig2Sign.initOnlyAtZero, Bool.and_eq_true, beq_iff_eq] at hg
      simp only [Musig2.Musig2Sign.run, Musig2.Musig2Sign.step] at hr
      obtain ⟨rs₁, hrs₁, hcons⟩ := Option.map_eq_some'.mp hr
      have hround : (p.init).round = p.round + 1 := by
        simp [Musig2.Musig2Sign.init, hg.1]
      rw [← hcons, ih _ _ hg.2 hrs₁, hround, List.length_cons, List.range'_succ]
    | advance =>
      simp only [Musig2.Musig2Sign.initOnlyAtZero] at hg
      simp only [Musig2.Musig2Sign.run, Musig2.Musig2Sign.step] at hr
      cases hadv : p.advance with
      | none => rw [hadv] at hr; simp at hr
      | some p₁ =>
        rw [hadv] at hr hg
        obtain ⟨rs₁, hrs₁, hcons⟩ := Option.map_eq_some'.mp hr
        have hround : p₁.round = p.round + 1 := by
          unfold Musig2.Musig2Sign.advance at hadv
          split at hadv
          · cases hadv; rfl
          · cases hadv
        rw [← hcons, ih _ _ hg hrs₁, hround, List.length_cons, List.range'_succ]
    | finalize =>
      simp only [Musig2.Musig2Sign.initOnlyAtZero] at hg
      simp only [Musig2.Musig2Sign.run, Musig2.Musig2Sign.step] at hr
      cases hfin : p.finalize with
      | none => rw [hfin] at hr; simp at hr
      | some p₁ =>
        rw [hfin] at hr hg
        obtain ⟨rs₁, hrs₁, hcons⟩ := Option.map_eq_some'.mp hr
        have hround : p₁.round = p.round + 1 := by
          unfold Musig2.Musig2Sign.finalize at hfin
          split at hfin
          · cases hfin; rfl
          · cases hfin
        rw [← hcons, ih _ _ hg hrs₁, hround, List.length_cons, List.range'_succ]

/-- Claim C3 (amended): provided `initialize` is invoked only in round-0
states, every successful call sequence on a `Musig2Group` or `Musig2Sign`
observes rounds that increase by exactly 1 per call (the trace from round `r`
is `r+1, r+2, ...`); independently, `advance` succeeds (its assertion holds)
exactly when `round < last_round`, `finalize` succeeds exactly when
`round = last_round`, and the last rounds are 2 (`Musig2Group`) and 3
(`Musig2Sign`). -/
theorem musig2_round_discipline (g q : Musig2.Musig2Group) (s r : Musig2.Musig2Sign)
    (csg css : List Musig2.PCall) (rsg rss : List Nat)
    (hg : g.initOnlyAtZero csg = true) (hrg : g.run csg = some rsg)
    (hs : s.initOnlyAtZero css = true) (hrs : s.run css = some rss) :
    rsg = List.range' (g.round + 1) csg.length 1 ∧
    rss = List.range' (s.round + 1) css.length 1 ∧
    (q.advance.isSome = true ↔ q.round < q.lastRound) ∧
    (q.finalize.isSome = true ↔ q.round = q.lastRound) ∧
    (r.advance.isSome = true ↔ r.round < r.lastRound) ∧
    (r.finalize.isSome = true ↔ r.round = r.lastRound) ∧
    q.lastRound = 2 ∧ r.lastRound = 3 := by
  refine ⟨musig2Group_run_guarded g csg rsg hg hrg,
    musig2Sign_run_guarded s css rss hs hrs, ?_, ?_, ?_, ?_, rfl, rfl⟩
  · unfold Musig2.Musig2Group.advance
    split <;> rename_i h <;> simp <;> omega
  · unfold Musig2.Musig2Group.finalize
    split <;> rename_i h <;> simp [h]
  · unfold Musig2.Musig2Sign.advance
    split <;> rename_i h <;> simp <;> omega
  · unfold Musig2.Musig2Sign.finalize
    split <;> rename_i h <;> simp [h]

/-- Witness for the amended C3 at the full guarded runs of both protocol
variants from round 0. -/
theorem musig2_round_discipline_witness :
    (Musig2.Musig2Group.new 3 2).initOnlyAtZero
        [Musig2.PCall.init, Musig2.PCall.advance, Musig2.PCall.finalize] = true ∧
    (Musig2.Musig2Group.new 3 2).run
        [Musig2.PCall.init, Musig2.PCall.advance, Musig2.PCall.finalize] = some [1, 2, 3] ∧
    Musig2.Musig2Sign.new.initOnlyAtZero
        [Musig2.PCall.init, Musig2.PCall.advance, Musig2.PCall.advance, Musig2.PCall.finalize]
      = true ∧
    Musig2.Musig2Sign.new.run
        [Musig2.PCall.init, Musig2.PCall.advance, Musig2.PCall.advance, Musig2.PCall.finalize]
      = some [1, 2, 3, 4] ∧
    [1, 2, 3] = List.range' 1 3 1 ∧ [1, 2, 3, 4] = List.range' 1 4 1 :=
  ⟨by decide, by decide, by decide, by decide,
    (musig2_round_discipline (Musig2.Musig2Group.new 3 2) (Musig2.Musig2Group.new 3 2)
      Musig2.Musig2Sign.new Musig2.Musig2Sign.new
      [Musig2.PCall.init, Musig2.PCall.advance, Musig2.PCall.finalize]
      [Musig2.PCall.init, Musig2.PCall.advance, Musig2.PCall.advance, Musig2.PCall.finalize]
      [1, 2, 3] [1, 2, 3, 4] (by decide) (by decide) (by decide) (by decide)).1,
    (musig2_round_discipline (Musig2.Musig2Group.new 3 2) (Musig2.Musig2Group.new 3 2)
      Musig2.Musig2Sign.new Musig2.Musig2Sign.new
      [Musig2.PCall.init, Musig2.PCall.advance, Musig2.PCall.finalize]
      [Musig2.PCall.init, Musig2.PCall.advance, Musig2.PCall.advance, Musig2.PCall.finalize]
      [1, 2, 3] [1, 2, 3, 4] (by decide) (by decide) (by decide) (by decide)).2.1⟩

/-- Claim C4: `State::add_device` of state.rs returns `false` and leaves the
whole state (in particular the device registry) unchanged when the name is
longer than 64 characters or contains an ASCII-punctuation or control
character, or when the identifier is already registered; otherwise it returns
`true` and appends exactly one new `Device` record, preserving all existing
entries. -/
theorem add_device_validation {τ : Type} (s : StateRs.State τ) (identifier : Bytes)
    (name : List Char) :
    (StateRs.invalidName name = true → s.addDevice identifier name = (false, s)) ∧
    (alContains identifier s.devices = true → s.addDevice identifier name = (false, s)) ∧
    (StateRs.invalidName name = false → alContains identifier s.devices = false →
      s.addDevice identifier name =
        (true, { s with
          devices := s.devices ++ [(identifier, StateRs.Device.new identifier name)] })) := by
  refine ⟨fun hbad => ?_, fun hdup => ?_, fun hok hfresh => ?_⟩
  · simp [StateRs.State.addDevice, hbad]
  · simp only [StateRs.State.addDevice, hdup]
    split <;> rfl
  · simp [StateRs.State.addDevice, hok, hfresh,
      alInsert_of_alContains_eq_false identifier (StateRs.Device.new identifier name)
        s.devices hfresh]

/-- Witness for C4: on the empty registry, a punctuation name is rejected
without mutation, while a valid registration appends exactly the one new
record. -/
theorem add_device_validation_witness :
    StateRs.State.addDevice (⟨[], [], []⟩ : StateRs.State Unit) [7] [Char.ofNat 33]
      = (false, (⟨[], [], []⟩ : StateRs.State Unit)) ∧
    StateRs.State.addDevice (⟨[], [], []⟩ : StateRs.State Unit) [7] [Char.ofNat 97]
      = (true, (⟨[([7], StateRs.Device.new [7] [Char.ofNat 97])], [], []⟩ : StateRs.State Unit)) :=
  ⟨(add_device_validation (⟨[], [], []⟩ : StateRs.State Unit) [7] [Char.ofNat 33]).1
      (by decide),
    (add_device_validation (⟨[], [], []⟩ : StateRs.State Unit) [7] [Char.ofNat 97]).2.2
      (by decide) (by decide)⟩

/-- Claim C6: `State::add_sign_task` of state.rs rejects a request whose data
exceeds 8 MiB or whose group identifier is not in the group store, returning
`None` with the state — tasks, groups, devices — unchanged. -/
theorem add_sign_task_rejection (s : StateRs.State StateRs.SignPDFTask) (freshUuid : Uuid)
    (group : Bytes) (name : List Char) (data : Bytes)
    (h : data.length > 8 * 1024 * 1024 ∨ alLookup group s.groups = none) :
    s.addSignTask freshUuid group name data = (none, s) := by
  unfold StateRs.State.addSignTask
  rcases h with hbig | hmiss
  · simp [hbig]
  · split
    · rfl
    · rw [hmiss]

/-- Witness for C6: an unknown group on the empty state, and an oversized
payload, are both rejected without mutation. -/
theorem add_sign_task_rejection_witness :
    StateRs.State.addSignTask (⟨[], [], []⟩ : StateRs.State StateRs.SignPDFTask) 0 [1] [] []
      = (none, (⟨[], [], []⟩ : StateRs.State StateRs.SignPDFTask)) ∧
    StateRs.State.addSignTask
        (⟨[], [([1], Group.mk [1] [[2]] 1)], []⟩ : StateRs.State StateRs.SignPDFTask) 0 [1] []
        (List.replicate (8 * 1024 * 1024 + 1) 0)
      = (none, (⟨[], [([1], Group.mk [1] [[2]] 1)], []⟩ : StateRs.State StateRs.SignPDFTask)) :=
  ⟨add_sign_task_rejection (⟨[], [], []⟩ : StateRs.State StateRs.SignPDFTask) 0 [1] [] []
      (Or.inr rfl),
    add_sign_task_rejection
      (⟨[], [([1], Group.mk [1] [[2]] 1)], []⟩ : StateRs.State StateRs.SignPDFTask) 0 [1] []
      (List.replicate (8 * 1024 * 1024 + 1) 0)
      (Or.inl (by rw [List.length_replicate]; omega))⟩

/-- Claim C7: in `MPCService::group` of rpc.rs an omitted threshold defaults
to the participant count, and `State::add_group_task` of main.rs returns
`false` with the state unchanged (no task added) when the threshold exceeds
the participant count or some requested device is not registered. -/
theorem group_request_validation (s : MainRs.State) (deviceIds : List Bytes)
    (threshold? : Option Nat) (threshold : Nat) (h32 : deviceIds.length < 2 ^ 32) :
    (threshold? = none → RpcRs.groupThreshold deviceIds threshold? = deviceIds.length) ∧
    (threshold > deviceIds.length → s.addGroupTask deviceIds threshold = some (false, s)) ∧
    ((∃ d, d ∈ deviceIds ∧ alContains d s.devices = false) →
      s.addGroupTask deviceIds threshold = some (false, s)) := by
  refine ⟨fun hnone => ?_, fun hbig => ?_, fun hunknown => ?_⟩
  · subst hnone
    show deviceIds.length % 2 ^ 32 = deviceIds.length
    exact Nat.mod_eq_of_lt h32
  · have hbig₁ : threshold > deviceIds.length % 2 ^ 32 := by
      rw [Nat.mod_eq_of_lt h32]; exact hbig
    unfold MainRs.State.addGroupTask
    rw [if_pos hbig₁]
  · obtain ⟨d, hd, hc⟩ := hunknown
    have hall : deviceIds.all (fun d => alContains d s.devices) = false := by
      cases hcase : deviceIds.all (fun d => alContains d s.devices) with
      | false => rfl
      | true =>
        have := (List.all_eq_true.mp hcase) d hd
        rw [hc] at this
        cases this
    unfold MainRs.State.addGroupTask
    split
    · rfl
    · rw [hall]
      simp

/-- Witness for C7: with one registered device `[1]`, an omitted threshold
defaults to the count 2, an oversized threshold 3 is rejected, and a request
naming the unregistered device `[2]` is rejected, all without mutation. -/
theorem group_request_validation_witness :
    RpcRs.groupThreshold [[1], [2]] none = 2 ∧
    MainRs.State.addGroupTask (⟨[([1], [])], [], []⟩ : MainRs.State) [[1], [2]] 3
      = some (false, (⟨[([1], [])], [], []⟩ : MainRs.State)) ∧
    MainRs.State.addGroupTask (⟨[([1], [])], [], []⟩ : MainRs.State) [[1], [2]] 2
      = some (false, (⟨[([1], [])], [], []⟩ : MainRs.State)) :=
  ⟨(group_request_validation (⟨[([1], [])], [], []⟩ : MainRs.State) [[1], [2]] none 3
      (by decide)).1 rfl,
    (group_request_validation (⟨[([1], [])], [], []⟩ : MainRs.State) [[1], [2]] none 3
      (by decide)).2.1 (by decide),
    (group_request_validation (⟨[([1], [])], [], []⟩ : MainRs.State) [[1], [2]] none 2
      (by decide)).2.2 ⟨[2], by decide, by decide⟩⟩

/-- Claim C9: every task-addressed `State` operation panics on a missing task
rather than returning an error value — main.rs `get_task`, `get_work` and
`update_task` panic (`none`) for any index at or beyond `tasks.len()`, and
state.rs `update_task`, `decide_task` and `acknowledge_task` panic for any
`Uuid` absent from the task map — while for an existing task the lookup
succeeds (witnessed here by `get_work`, `decide_task` and `acknowledge_task`,
whose bodies have no panic point other than the lookup). -/
theorem task_lookup_panics {τ : Type} (ops : StateRs.TaskOps τ)
    (s s₂ : MainRs.State) (idx idx₂ : Nat) (d data : Bytes)
    (st st₂ : StateRs.State τ) (u u₂ : Uuid)
    (hmain : s.tasks.length ≤ idx) (hstate : alLookup u st.tasks = none)
    (hmain₂ : idx₂ < s₂.tasks.length) (hstate₂ : alContains u₂ st₂.tasks = true) :
    s.getTask idx = none ∧ s.getWork idx d = none ∧ s.updateTask idx d data = none ∧
    StateRs.State.updateTask ops st u d data = none ∧
    StateRs.State.decideTask ops st u d true = none ∧
    StateRs.State.acknowledgeTask ops st u d = none ∧
    (s₂.getWork idx₂ d).isSome = true ∧
    (StateRs.State.decideTask ops st₂ u₂ d true).isSome = true ∧
    (StateRs.State.acknowledgeTask ops st₂ u₂ d).isSome = true := by
  have hget : s.tasks[idx]? = none := List.getElem?_eq_none hmain
  have ht₂ : s₂.tasks[idx₂]? = some (s₂.tasks[idx₂]) := List.getElem?_eq_getElem hmain₂
  obtain ⟨v₂, hv₂⟩ := Option.isSome_iff_exists.mp
    (alLookup_isSome_of_alContains u₂ st₂.tasks hstate₂)
  refine ⟨?_, ?_, ?_, ?_, ?_, ?_, ?_, ?_, ?_⟩
  · simp [MainRs.State.getTask, hget]
  · simp [MainRs.State.getWork, hget]
  · simp [MainRs.State.updateTask, hget]
  · simp [StateRs.State.updateTask, hstate]
  · simp [StateRs.State.decideTask, hstate]
  · simp [StateRs.State.acknowledgeTask, hstate]
  · simp [MainRs.State.getWork, ht₂]
  · simp [StateRs.State.decideTask, hv₂]
  · simp [StateRs.State.acknowledgeTask, hv₂]

/-- Witness for C9 on concrete states: the empty main.rs state panics on task
index 0, while a one-task state serves `get_work`; dually for the state.rs
orchestrator over trivial `Unit` tasks. -/
theorem task_lookup_panics_witness :
    MainRs.State.getTask ⟨[], [], []⟩ 0 = none ∧
    (MainRs.State.getWork ⟨[], [], [MainRs.Task.sign (MainRs.SignTask.new [] [])]⟩ 0 []).isSome
      = true := by
  have h := task_lookup_panics
    (⟨fun _ => StateRs.TaskStatus.Waiting, fun t _ _ => (Except.ok false, t), fun _ => none,
      fun t _ _ => (false, t), fun t _ => t⟩ : StateRs.TaskOps Unit)
    ⟨[], [], []⟩ ⟨[], [], [MainRs.Task.sign (MainRs.SignTask.new [] [])]⟩ 0 0 [] []
    ⟨[], [], []⟩ ⟨[], [], [(0, ())]⟩ 0 0
    (by decide) rfl (by decide) rfl
  exact ⟨h.1, h.2.2.2.2.2.2.1⟩

end Meesign
